import Mathlib

/-!
Verification of the almaze-api agent execution and delegation engine.

The definitions below are a shallow embedding of the Python sources:
  agents/base.py     (BaseAgent: the bounded reasoning loop)
  agents/compass.py  (CompassAgent: classification, routing, delegation)
  agents/techsage.py (TechSageAgent: the development agent step)
  tools/agent/assign_agent_to_task.py (the delegation dispatcher)

Conventions of the embedding:
  - Python strings are Lean String; character-level operations run on
    String.data (a List Char).  Python str.lower, str.strip and the regex
    classes \d and \s are modelled on the ASCII range, which is the range
    exercised by every string constant of the repository.
  - The language-model inference call and the concrete tool bodies are
    external collaborators (spec, section 1); they enter the embedding as
    oracle parameters (total functions), and a call that raises is modelled
    by an explicit failure outcome.
  - A Python exception is modelled with Except String; a Python name that
    is read but never assigned (a NameError at runtime) is modelled by a
    lookup in an empty binding, see lookupName below.
-/

/-- Python str.isspace characters on the ASCII range, as used by str.strip
and by the regex class \s. -/
def pySpace (c : Char) : Bool :=
  c = ' ' || c = '\t' || c = '\n' || c = '\r' || c = Char.ofNat 11 || c = Char.ofNat 12

/-- Python str.strip on a character list: drop whitespace at both ends. -/
def pyStripChars (l : List Char) : List Char :=
  ((l.dropWhile pySpace).reverse.dropWhile pySpace).reverse

/-- Python str.strip. -/
def pyStrip (s : String) : String :=
  String.mk (pyStripChars s.data)

/-- Python str.lower, on the ASCII range. -/
def pyLower (s : String) : String :=
  String.mk (s.data.map Char.toLower)

/-- Does the first list occur as a leading segment of the second list? -/
def listPrefixOf : List Char → List Char → Bool
  | [], _ => true
  | _ :: _, [] => false
  | a :: as, b :: bs => a = b && listPrefixOf as bs

/-- Python substring containment (needle in hay), character-level. -/
def containsSub : List Char → List Char → Bool
  | [], needle => listPrefixOf needle []
  | h :: t, needle => listPrefixOf needle (h :: t) || containsSub t needle

/-- Python str.split(sep) for a one-character separator: splits on every
occurrence and keeps empty segments, so the result is never empty. -/
def splitOnChar (sep : Char) : List Char → List (List Char)
  | [] => [[]]
  | c :: rest =>
    let r := splitOnChar sep rest
    if c = sep then [] :: r
    else
      match r with
      | [] => [[c]]
      | h :: t => (c :: h) :: t

/-- Python str.split(sep) on String, one-character separator. -/
def pySplit (s : String) (sep : Char) : List String :=
  (splitOnChar sep s.data).map String.mk

/-- Python sep.join(list). -/
def pyJoin (sep : String) : List String → String
  | [] => ""
  | [x] => x
  | x :: y :: ys => x ++ sep ++ pyJoin sep (y :: ys)

/-- Python list indexing l[i] for a non-negative index; raises IndexError
when the index is out of range. -/
def pyIndex {α : Type} (l : List α) (i : Nat) : Except String α :=
  match l.get? i with
  | some v => Except.ok v
  | none => Except.error "IndexError: list index out of range"

/-- Reading a Python name: a name that was never assigned raises NameError.
The binding argument records whether the name is bound at the read site. -/
def lookupName {α : Type} (binding : Option α) (n : String) : Except String α :=
  match binding with
  | some v => Except.ok v
  | none => Except.error ("name " ++ n ++ " is not defined")

/-!  agents/base.py : conversation messages and agent state  -/

/-- A conversation message (langchain SystemMessage / HumanMessage /
AIMessage; an AIMessage carrying a function_call has empty content). -/
inductive Msg where
  | system (content : String)
  | human (content : String)
  | ai (content : String)
  | aiCall (fname : String) (fargs : String)
deriving DecidableEq

/-- The content attribute of a message. -/
def Msg.content : Msg → String
  | .system s => s
  | .human s => s
  | .ai s => s
  | .aiCall _ _ => ""

/-- AgentState from agents/base.py: messages, iterations, final_answer. -/
structure LoopState where
  messages : List Msg
  iterations : Nat
  finalAnswer : Option String
deriving DecidableEq

/-- Outcome of one inference-service call inside a step: a direct answer,
a structured tool-call request, or a raised error (transport failure and
any other exception inside the try block of the step). -/
inductive StepOutcome where
  | answer (text : String)
  | toolCall (fname : String) (fargs : String)
  | failure (err : String)
deriving DecidableEq

/-- BaseAgent._process_step from agents/base.py.

budget is self.max_iterations; summary is the (total, self-catching)
result of self._generate_final_answer; outcome is what the try block
produces at the inference call: an answer, a function_call, or a raised
exception; toolRes is the string returned by self._execute_tool, which
catches its own errors.  Branches follow the source literally:
  - at budget exhaustion, return the summary as final answer;
  - with no last message, return the state unchanged (defensive no-op);
  - on a function_call, append the assistant call message and a system
    message with the tool result, leave final_answer as it was;
  - on an answer, append it and set final_answer to it;
  - on a raised exception, append a system message with the literal
    error description, increment iterations, and set final_answer to
    that same error description. -/
def processStep (budget : Nat) (summary : String) (outcome : StepOutcome)
    (toolRes : String → String → String) (s : LoopState) : LoopState :=
  if budget ≤ s.iterations then
    { messages := s.messages, iterations := s.iterations + 1, finalAnswer := some summary }
  else
    match s.messages.getLast? with
    | none => s
    | some _ =>
      match outcome with
      | .toolCall fn fa =>
        { messages := s.messages ++ [Msg.aiCall fn fa, Msg.system (toolRes fn fa)],
          iterations := s.iterations + 1,
          finalAnswer := s.finalAnswer }
      | .answer t =>
        { messages := s.messages ++ [Msg.ai t],
          iterations := s.iterations + 1,
          finalAnswer := some t }
      | .failure e =>
        { messages := s.messages ++ [Msg.system ("Error occurred: " ++ e)],
          iterations := s.iterations + 1,
          finalAnswer := some ("Error occurred: " ++ e) }

/-- BaseAgent._should_continue from agents/base.py: true means continue,
false means END. -/
def shouldContinue (budget : Nat) (s : LoopState) : Bool :=
  if s.finalAnswer.isSome ∨ budget ≤ s.iterations then false else true

/-- The langgraph loop compiled in BaseAgent._build_graph: the process node
runs once from the entry point, then _should_continue decides whether to
run it again.  The fuel argument only bounds how many applications we are
willing to unfold; the loop itself stops as soon as _should_continue says
END.  The oracle families summaries and outcomes are indexed by the
iteration count at which the step runs. -/
def runLoop (budget : Nat) (summaries : Nat → String) (outcomes : Nat → StepOutcome)
    (toolRes : String → String → String) : Nat → LoopState → LoopState
  | 0, s => s
  | fuel + 1, s =>
    let s' := processStep budget (summaries s.iterations) (outcomes s.iterations) toolRes s
    if shouldContinue budget s' then runLoop budget summaries outcomes toolRes fuel s'
    else s'

/-- The initial state built by BaseAgent.process: a system message with the
role prompt, a human message with the task, iterations 0, no final answer. -/
def initialState (sysPrompt task : String) : LoopState :=
  { messages := [Msg.system sysPrompt, Msg.human task], iterations := 0, finalAnswer := none }

/-- The return value of BaseAgent.process computed from the final state:
the final answer when it is a truthy (non-empty) string, otherwise the
content of the last message, otherwise a fixed fallback string. -/
def processResult (s : LoopState) : String :=
  let fallback :=
    match s.messages.getLast? with
    | some m => m.content
    | none => "No response generated"
  match s.finalAnswer with
  | some fa => if fa = "" then fallback else fa
  | none => fallback

/-- A step taken from a state with a non-empty conversation increments the
iteration count by exactly one. -/
theorem processStep_iterations (budget : Nat) (summary : String) (outcome : StepOutcome)
    (toolRes : String → String → String) (s : LoopState) (h : s.messages ≠ []) :
    (processStep budget summary outcome toolRes s).iterations = s.iterations + 1 := by
  unfold processStep
  by_cases hb : budget ≤ s.iterations
  · simp [hb]
  · have hsome : s.messages.getLast?.isSome := by
      rw [List.getLast?_isSome]
      exact h
    obtain ⟨m, hm⟩ := Option.isSome_iff_exists.mp hsome
    simp only [hb, if_false, hm]
    cases outcome <;> simp

/-- A step taken from a state with a non-empty conversation leaves the
conversation non-empty. -/
theorem processStep_messages_ne_nil (budget : Nat) (summary : String) (outcome : StepOutcome)
    (toolRes : String → String → String) (s : LoopState) (h : s.messages ≠ []) :
    (processStep budget summary outcome toolRes s).messages ≠ [] := by
  unfold processStep
  by_cases hb : budget ≤ s.iterations
  · simpa [hb] using h
  · have hsome : s.messages.getLast?.isSome := by
      rw [List.getLast?_isSome]
      exact h
    obtain ⟨m, hm⟩ := Option.isSome_iff_exists.mp hsome
    simp only [hb, if_false, hm]
    cases outcome <;> simp

/-- With enough fuel relative to the remaining budget, the loop reaches a
state on which _should_continue answers END. -/
theorem runLoop_reaches_end (budget : Nat) (summaries : Nat → String)
    (outcomes : Nat → StepOutcome) (toolRes : String → String → String) :
    ∀ (fuel : Nat) (s : LoopState), s.messages ≠ [] → budget ≤ s.iterations + fuel →
      shouldContinue budget (runLoop budget summaries outcomes toolRes fuel s) = false := by
  intro fuel
  induction fuel with
  | zero =>
    intro s hmsg hb
    simp only [runLoop, shouldContinue]
    simp only [Nat.add_zero] at hb
    simp [hb]
  | succ n ih =>
    intro s hmsg hb
    simp only [runLoop]
    set s' := processStep budget (summaries s.iterations) (outcomes s.iterations) toolRes s with hs'
    by_cases hc : shouldContinue budget s' = true
    · rw [if_pos hc]
      apply ih
      · exact processStep_messages_ne_nil _ _ _ _ _ hmsg
      · have hit : s'.iterations = s.iterations + 1 :=
          processStep_iterations _ _ _ _ _ hmsg
        omega
    · rw [if_neg hc]
      exact Bool.not_eq_true _ ▸ hc

/-- Claim C1: for every iteration budget B ≥ 1 and every sequence of
inference-service outcomes (answers, tool-call requests, or failures), a
BaseAgent.process invocation terminates after at most B+1 applications of
the step function: unfolding the loop for B+1 steps from the initial state
reaches a state on which _should_continue answers END. -/
theorem agent_loop_terminates_within_budget (B : Nat) (_hB : 1 ≤ B)
    (sysPrompt task : String) (summaries : Nat → String) (outcomes : Nat → StepOutcome)
    (toolRes : String → String → String) :
    shouldContinue B
      (runLoop B summaries outcomes toolRes (B + 1) (initialState sysPrompt task)) = false := by
  apply runLoop_reaches_end
  · simp [initialState]
  · simp [initialState]

/-- Witness for C1 at a concrete budget and outcome sequence. -/
theorem agent_loop_terminates_within_budget_witness :
    1 ≤ 2 ∧
    shouldContinue 2
      (runLoop 2 (fun _ => "summary") (fun _ => StepOutcome.toolCall "f" "a")
        (fun _ _ => "tool result") 3 (initialState "sys" "task")) = false :=
  ⟨by decide,
   agent_loop_terminates_within_budget 2 (by decide) "sys" "task"
     (fun _ => "summary") (fun _ => StepOutcome.toolCall "f" "a") (fun _ _ => "tool result")⟩

/-- Counterexample to claim C2 as stated: after a failure in the very first
step of a budget-5 agent, the iteration count is 1, strictly below the
budget, and yet _should_continue already answers END — the loop does not
continue after a step failure, because the exception handler in
BaseAgent._process_step also sets final_answer to the error description. -/
theorem step_failure_ends_loop_counterexample :
    (processStep 5 "summary" (StepOutcome.failure "boom") (fun _ _ => "")
        (initialState "sys" "task")).iterations = 1 ∧
    (1 : Nat) < 5 ∧
    shouldContinue 5
      (processStep 5 "summary" (StepOutcome.failure "boom") (fun _ _ => "")
        (initialState "sys" "task")) = false := by
  refine ⟨by decide, by decide, by decide⟩

/-- Claim C2 (amended): for every agent state with a non-empty conversation
and an iteration count below the budget, a failure raised while computing
the step is caught at the step boundary, a system Message with the literal
error description is appended, and the iteration count is incremented; but
the final answer is also set to that error description, so the very next
continuation check terminates the loop — a single step failure by itself
ends the invocation. -/
theorem step_failure_caught_and_terminates (budget : Nat) (summary e : String)
    (toolRes : String → String → String) (s : LoopState)
    (hmsg : s.messages ≠ []) (hit : s.iterations < budget) :
    processStep budget summary (StepOutcome.failure e) toolRes s =
      { messages := s.messages ++ [Msg.system ("Error occurred: " ++ e)],
        iterations := s.iterations + 1,
        finalAnswer := some ("Error occurred: " ++ e) } ∧
    shouldContinue budget (processStep budget summary (StepOutcome.failure e) toolRes s) = false := by
  have hb : ¬ budget ≤ s.iterations := by omega
  have hsome : s.messages.getLast?.isSome := by
    rw [List.getLast?_isSome]
    exact hmsg
  obtain ⟨m, hm⟩ := Option.isSome_iff_exists.mp hsome
  constructor
  · unfold processStep
    simp [hb, hm]
  · unfold processStep shouldContinue
    simp [hb, hm]

/-- Witness for the amended C2 at a concrete state and error. -/
theorem step_failure_caught_and_terminates_witness :
    processStep 5 "summary" (StepOutcome.failure "boom") (fun _ _ => "")
        (initialState "sys" "task") =
      { messages := [Msg.system "sys", Msg.human "task",
                     Msg.system ("Error occurred: " ++ "boom")],
        iterations := 1,
        finalAnswer := some ("Error occurred: " ++ "boom") } ∧
    shouldContinue 5
      (processStep 5 "summary" (StepOutcome.failure "boom") (fun _ _ => "")
        (initialState "sys" "task")) = false :=
  step_failure_caught_and_terminates 5 "summary" "boom" (fun _ _ => "")
    (initialState "sys" "task") (by decide) (by decide)

/-- The error description recorded by the step handler is never the empty
string. -/
theorem error_occurred_ne_empty (e : String) : ("Error occurred: " ++ e) ≠ "" := by
  intro h
  have hlen := congrArg String.length h
  rw [String.length_append] at hlen
  have h16 : ("Error occurred: ").length = 16 := by decide
  rw [h16] at hlen
  simp at hlen

/-- Claim C4: for every iteration budget B ≥ 1, if every inference-service
call raises an error, the invocation still terminates at or before the
iteration budget (here: already after the first step, whose state the loop
then returns unchanged), and BaseAgent.process returns a non-empty final
answer string — a failure description — rather than raising. -/
theorem all_failures_still_terminate (B : Nat) (hB : 1 ≤ B) (sysPrompt task : String)
    (summaries : Nat → String) (errs : Nat → String) (toolRes : String → String → String) :
    shouldContinue B
      (runLoop B summaries (fun n => StepOutcome.failure (errs n)) toolRes B
        (initialState sysPrompt task)) = false ∧
    (runLoop B summaries (fun n => StepOutcome.failure (errs n)) toolRes B
        (initialState sysPrompt task)).iterations ≤ B ∧
    processResult
      (runLoop B summaries (fun n => StepOutcome.failure (errs n)) toolRes B
        (initialState sysPrompt task)) ≠ "" := by
  obtain ⟨b, rfl⟩ : ∃ b, B = b + 1 := ⟨B - 1, by omega⟩
  have hstep : processStep (b + 1) (summaries 0) (StepOutcome.failure (errs 0)) toolRes
      (initialState sysPrompt task) =
      { messages := [Msg.system sysPrompt, Msg.human task,
                     Msg.system ("Error occurred: " ++ errs 0)],
        iterations := 1,
        finalAnswer := some ("Error occurred: " ++ errs 0) } := by
    have h := step_failure_caught_and_terminates (b + 1) (summaries 0) (errs 0) toolRes
      (initialState sysPrompt task) (by simp [initialState]) (by simp [initialState])
    simpa [initialState] using h.1
  have hrun : runLoop (b + 1) summaries (fun n => StepOutcome.failure (errs n)) toolRes (b + 1)
      (initialState sysPrompt task) =
      { messages := [Msg.system sysPrompt, Msg.human task,
                     Msg.system ("Error occurred: " ++ errs 0)],
        iterations := 1,
        finalAnswer := some ("Error occurred: " ++ errs 0) } := by
    have h0 : (initialState sysPrompt task).iterations = 0 := rfl
    simp only [runLoop, h0]
    rw [hstep]
    simp [shouldContinue]
  rw [hrun]
  refine ⟨by simp [shouldContinue], by simp, ?_⟩
  simp only [processResult]
  rw [if_neg (error_occurred_ne_empty (errs 0))]
  exact error_occurred_ne_empty (errs 0)

/-- Witness for C4 at a concrete budget and error sequence. -/
theorem all_failures_still_terminate_witness :
    shouldContinue 3
      (runLoop 3 (fun _ => "summary") (fun n => StepOutcome.failure ((fun _ => "down") n))
        (fun _ _ => "") 3 (initialState "sys" "task")) = false ∧
    (runLoop 3 (fun _ => "summary") (fun n => StepOutcome.failure ((fun _ => "down") n))
        (fun _ _ => "") 3 (initialState "sys" "task")).iterations ≤ 3 ∧
    processResult
      (runLoop 3 (fun _ => "summary") (fun n => StepOutcome.failure ((fun _ => "down") n))
        (fun _ _ => "") 3 (initialState "sys" "task")) ≠ "" := by
  have h := all_failures_still_terminate 3 (by decide) "sys" "task"
    (fun _ => "summary") (fun _ => "down") (fun _ _ => "")
  exact h

/-!  agents/compass.py : agent-name normalization, classification parsing  -/

/-- CompassAgent._clean_agent_name from agents/compass.py: strip the leading
run of digits, whitespace and dots (re.sub of the anchored class), then
strip and lowercase, then return the first key of AGENT_DESCRIPTIONS that
occurs in the cleaned name as a substring (dictionary insertion order:
tool_smith, architect, scout, techsage), and otherwise the literal direct. -/
def cleanAgentName (name : String) : String :=
  let dropped := name.data.dropWhile (fun c => c.isDigit || pySpace c || c = '.')
  let cleaned := (pyStripChars dropped).map Char.toLower
  if containsSub cleaned "tool_smith".data then "tool_smith"
  else if containsSub cleaned "architect".data then "architect"
  else if containsSub cleaned "scout".data then "scout"
  else if containsSub cleaned "techsage".data then "techsage"
  else "direct"

/-- TaskAnalysis as built by CompassAgent._parse_analysis: primary agent,
reason, additional agents, task breakdown lines. -/
structure TaskAnalysis where
  primary_agent : String
  reason : String
  additional_agents : List String
  task_breakdown : List String
deriving DecidableEq

/-- The try block of CompassAgent._parse_analysis, with each Python list
indexing that can raise IndexError made explicit.  The dict literal in the
source evaluates its values in key order: primary_agent first (lines[0]
split on the colon, second part), then reason (same on lines[1] when there
is a second line), then additional_agents (third line split on a colon
when it has one, then on commas, entries stripped, empty and none entries
dropped, the rest normalized), then task_breakdown (lines from the fourth
on). -/
def parseAnalysisBody (analysis : String) : Except String TaskAnalysis := do
  let lines := pySplit analysis '\n'
  let line0 ← pyIndex lines 0
  let p1 ← pyIndex (pySplit line0 ':') 1
  let primary := cleanAgentName (pyStrip p1)
  let reason ←
    if lines.length > 1 then do
      let line1 ← pyIndex lines 1
      let r1 ← pyIndex (pySplit line1 ':') 1
      pure (pyStrip r1)
    else
      pure ""
  let rawAdditional ←
    if h2 : lines.length > 2 then do
      let line2 := lines.get ⟨2, h2⟩
      if containsSub line2.data [':'] then do
        let seg ← pyIndex (pySplit line2 ':') 1
        pure (pySplit seg ',')
      else
        pure (pySplit line2 ',')
    else
      pure ([] : List String)
  let additional :=
    (rawAdditional.filter
      (fun a => pyStrip a ≠ "" && pyLower (pyStrip a) ≠ "none")).map
      (fun a => cleanAgentName (pyStrip a))
  let breakdown := if lines.length > 3 then lines.drop 3 else []
  pure ⟨primary, reason, additional, breakdown⟩

/-- CompassAgent._parse_analysis: the try block above with its except
handler, which degrades any exception to the fixed fallback analysis. -/
def parseAnalysis (analysis : String) : TaskAnalysis :=
  match parseAnalysisBody analysis with
  | .ok t => t
  | .error _ => ⟨"direct", "Error in analysis", [], []⟩

/-- CompassAgent._analyze_task, as a function of the classifier response
content: parse it, then clear additional_agents when the primary agent is
scout (the single-primary bias of the source). -/
def analyzeTask (responseContent : String) : TaskAnalysis :=
  let analysis := parseAnalysis responseContent
  if analysis.primary_agent = "scout" then
    { analysis with additional_agents := [] }
  else
    analysis

/-- Counterexample to claim C5 as stated: the classifier label
1. Researcher — web lookup does not normalize to the researcher identity
(the key scout); none of the fixed keys occurs in the cleaned string, so
normalization yields direct. -/
theorem clean_agent_name_researcher_counterexample :
    cleanAgentName "1. Researcher — web lookup" = "direct" ∧
    cleanAgentName "1. Researcher — web lookup" ≠ "scout" := by
  refine ⟨by decide, by decide⟩

/-- Claim C5 (amended): agent-name normalization is total and idempotent:
every input yields one of the four fixed identities or direct, and
normalization fixes its own output; banana normalizes to direct, and so
does 1. Researcher — web lookup, because matching is substring containment
of the literal keys tool_smith, architect, scout, techsage and the word
researcher contains none of them. -/
theorem clean_agent_name_total_idempotent :
    (∀ s : String,
      cleanAgentName s = "tool_smith" ∨ cleanAgentName s = "architect" ∨
      cleanAgentName s = "scout" ∨ cleanAgentName s = "techsage" ∨
      cleanAgentName s = "direct") ∧
    (∀ s : String, cleanAgentName (cleanAgentName s) = cleanAgentName s) ∧
    cleanAgentName "1. Researcher — web lookup" = "direct" ∧
    cleanAgentName "banana" = "direct" := by
  have hrange : ∀ s : String,
      cleanAgentName s = "tool_smith" ∨ cleanAgentName s = "architect" ∨
      cleanAgentName s = "scout" ∨ cleanAgentName s = "techsage" ∨
      cleanAgentName s = "direct" := by
    intro s
    unfold cleanAgentName
    dsimp only
    split_ifs <;> simp
  refine ⟨hrange, ?_, by decide, by decide⟩
  intro s
  rcases hrange s with h | h | h | h | h <;> rw [h] <;> decide

/-- Claim C6: whenever the normalized primary agent of a classifier
response is scout, the TaskAnalysis produced by _analyze_task has an empty
additional-agents list, regardless of what the classifier proposed. -/
theorem scout_primary_suppresses_additional (responseContent : String)
    (h : (analyzeTask responseContent).primary_agent = "scout") :
    (analyzeTask responseContent).additional_agents = [] := by
  unfold analyzeTask at *
  by_cases hp : (parseAnalysis responseContent).primary_agent = "scout"
  · simp [hp]
  · simp only [if_neg hp] at h
    exact absurd h hp

/-- Witness for C6: a classifier response naming scout as primary and
proposing two additional agents still yields an empty additional list. -/
theorem scout_primary_suppresses_additional_witness :
    (analyzeTask "Primary: scout\nReason: research\nAdditional: techsage, architect\nStep 1").primary_agent
      = "scout" ∧
    (analyzeTask "Primary: scout\nReason: research\nAdditional: techsage, architect\nStep 1").additional_agents
      = [] :=
  ⟨by decide,
   scout_primary_suppresses_additional
     "Primary: scout\nReason: research\nAdditional: techsage, architect\nStep 1" (by decide)⟩

/-- Claim C7: parsing a classifier response never raises: the try block
may fail (modelled by the Except error), but _parse_analysis always
returns a TaskAnalysis, and whenever the expected line structure is not
found it degrades to the fixed fallback with primary agent direct and an
empty additional-agents list. -/
theorem parse_analysis_degrades_on_failure (s e : String)
    (h : parseAnalysisBody s = Except.error e) :
    parseAnalysis s = ⟨"direct", "Error in analysis", [], []⟩ ∧
    (parseAnalysis s).primary_agent = "direct" ∧
    (parseAnalysis s).additional_agents = [] := by
  unfold parseAnalysis
  rw [h]
  exact ⟨rfl, rfl, rfl⟩

/-- Witness for C7: a response whose first line has no colon makes the try
block raise IndexError, and parsing degrades to the direct fallback. -/
theorem parse_analysis_degrades_on_failure_witness :
    parseAnalysis "the model ignored the requested format" =
      ⟨"direct", "Error in analysis", [], []⟩ ∧
    (parseAnalysis "the model ignored the requested format").primary_agent = "direct" ∧
    (parseAnalysis "the model ignored the requested format").additional_agents = [] :=
  parse_analysis_degrades_on_failure "the model ignored the requested format"
    "IndexError: list index out of range" rfl

/-!  agents/compass.py : delegation, and tools/agent/assign_agent_to_task.py  -/

/-- A DelegationRecord: one entry of the agent_responses list built by
CompassAgent._delegate_to_agents. -/
structure AgentResp where
  agent : String
  response : String
deriving DecidableEq

/-- AGENT_DESCRIPTIONS.get(agent, the Complete-the-task default) from
agents/compass.py. -/
def agentDescription : String → String
  | "tool_smith" => "Creates new specialized agents for specific tasks"
  | "architect" => "Creates and manages tools that other agents can use"
  | "scout" => "Performs internet research and gathers information"
  | "techsage" => "Handles code-related tasks and software development"
  | _ => "Complete the task"

/-- CompassAgent._create_subtask: the derived sub-task string built from
the original task, all previous delegation records, and the agent about to
be dispatched. -/
def createSubtask (originalTask agent : String) (previousResponses : List AgentResp) : String :=
  let previousStr :=
    pyJoin "\n" (previousResponses.map (fun r => "[" ++ r.agent ++ "]: " ++ r.response))
  "Original task: " ++ originalTask ++ "\n\nPrevious responses:\n" ++ previousStr ++
    "\n\nBased on the above, complete your part of the task as the " ++ agent ++
    " agent.\nFocus on your specialization: " ++ agentDescription agent

/-- The for-loop over additional agents in CompassAgent._delegate_to_agents:
each additional agent different from the primary is dispatched with the
sub-task derived from the records accumulated so far, and its record is
appended; dispatch abstracts assign_agent_to_task.invoke. -/
def delegLoop (dispatch : String → String → String) (primary task : String) :
    List String → List AgentResp → List AgentResp
  | [], acc => acc
  | a :: rest, acc =>
    if a = primary then
      delegLoop dispatch primary task rest acc
    else
      delegLoop dispatch primary task rest
        (acc ++ [⟨a, dispatch a (createSubtask task a acc)⟩])

/-- CompassAgent._delegate_to_agents: the primary agent is dispatched first
with the original task, then the additional agents are processed in listed
order. -/
def delegateToAgents (dispatch : String → String → String) (analysis : TaskAnalysis)
    (task : String) : List AgentResp :=
  delegLoop dispatch analysis.primary_agent task analysis.additional_agents
    [⟨analysis.primary_agent, dispatch analysis.primary_agent task⟩]

/-- Unfolding of the additional-agent loop: it extends the accumulator with
one record per non-primary additional agent, in order, each produced from
the sub-task derived from everything accumulated before it. -/
theorem delegLoop_spec (dispatch : String → String → String) (primary task : String) :
    ∀ (rest : List String) (acc : List AgentResp),
      ∃ ext : List AgentResp,
        delegLoop dispatch primary task rest acc = acc ++ ext ∧
        ext.map AgentResp.agent = rest.filter (fun a => !(a == primary)) ∧
        ∀ j : Nat, j < ext.length →
          (ext.getD j ⟨"", ""⟩).response =
            dispatch (ext.getD j ⟨"", ""⟩).agent
              (createSubtask task (ext.getD j ⟨"", ""⟩).agent (acc ++ ext.take j)) := by
  intro rest
  induction rest with
  | nil =>
    intro acc
    refine ⟨[], by simp [delegLoop], by simp, ?_⟩
    intro j h
    exact absurd h (by simp)
  | cons a rest ih =>
    intro acc
    by_cases ha : a = primary
    · obtain ⟨ext, h1, h2, h3⟩ := ih acc
      refine ⟨ext, ?_, ?_, h3⟩
      · rw [delegLoop, if_pos ha]
        exact h1
      · rw [h2]
        simp [ha]
    · obtain ⟨ext, h1, h2, h3⟩ :=
        ih (acc ++ [⟨a, dispatch a (createSubtask task a acc)⟩])
      refine ⟨⟨a, dispatch a (createSubtask task a acc)⟩ :: ext, ?_, ?_, ?_⟩
      · rw [delegLoop, if_neg ha, h1]
        simp
      · rw [List.map_cons, h2]
        simp [ha]
      · intro j h
        cases j with
        | zero =>
          simp
        | succ j =>
          have h' : j < ext.length := by simpa using h
          have hj := h3 j h'
          simpa [List.append_assoc] using hj

/-- The original task occurs verbatim inside every derived sub-task. -/
theorem task_infix_createSubtask (t ag : String) (prev : List AgentResp) :
    t.data <:+: (createSubtask t ag prev).data := by
  refine ⟨"Original task: ".data, ("\n\nPrevious responses:\n" ++
    pyJoin "\n" (prev.map (fun r => "[" ++ r.agent ++ "]: " ++ r.response)) ++
    "\n\nBased on the above, complete your part of the task as the " ++ ag ++
    " agent.\nFocus on your specialization: " ++ agentDescription ag).data, ?_⟩
  simp [createSubtask, String.data_append, List.append_assoc]

/-- Every member of a joined list occurs verbatim in the join. -/
theorem mem_infix_pyJoin (sep s : String) (l : List String) (h : s ∈ l) :
    s.data <:+: (pyJoin sep l).data := by
  induction l with
  | nil => exact absurd h (by simp)
  | cons x xs ih =>
    cases xs with
    | nil =>
      rw [List.mem_singleton] at h
      rw [h, pyJoin]
    | cons y ys =>
      rw [List.mem_cons] at h
      rcases h with h | h
      · refine ⟨[], (sep ++ pyJoin sep (y :: ys)).data, ?_⟩
        rw [h, pyJoin]
        simp [String.data_append, List.append_assoc]
      · have hsuf : (pyJoin sep (y :: ys)).data <:+: (pyJoin sep (x :: y :: ys)).data := by
          refine ⟨(x ++ sep).data, [], ?_⟩
          rw [pyJoin]
          simp [String.data_append, List.append_assoc]
        exact (ih h).trans hsuf

/-- Every previous delegation record response occurs verbatim inside the
derived sub-task. -/
theorem response_infix_createSubtask (t ag : String) (prev : List AgentResp)
    (r : AgentResp) (hr : r ∈ prev) :
    r.response.data <:+: (createSubtask t ag prev).data := by
  have h1 : r.response.data <:+: ("[" ++ r.agent ++ "]: " ++ r.response).data := by
    refine ⟨("[" ++ r.agent ++ "]: ").data, [], ?_⟩
    simp [String.data_append, List.append_assoc]
  have h2 : ("[" ++ r.agent ++ "]: " ++ r.response) ∈
      prev.map (fun r => "[" ++ r.agent ++ "]: " ++ r.response) :=
    List.mem_map_of_mem _ hr
  have h3 := mem_infix_pyJoin "\n" _ _ h2
  have h4 : (pyJoin "\n" (prev.map (fun r => "[" ++ r.agent ++ "]: " ++ r.response))).data <:+:
      (createSubtask t ag prev).data := by
    refine ⟨("Original task: " ++ t ++ "\n\nPrevious responses:\n").data,
      ("\n\nBased on the above, complete your part of the task as the " ++ ag ++
        " agent.\nFocus on your specialization: " ++ agentDescription ag).data, ?_⟩
    simp [createSubtask, String.data_append, List.append_assoc]
  exact (h1.trans h3).trans h4

/-- Claim C8: in the delegating branch, the primary agent is dispatched
first with the original task; each additional agent is then dispatched
strictly sequentially in listed order, skipping duplicates of the primary;
every later agent receives the sub-task derived from all records produced
so far — a string that contains the original task and every earlier
response verbatim. -/
theorem delegation_sequential_with_context (dispatch : String → String → String)
    (analysis : TaskAnalysis) (task : String) :
    (delegateToAgents dispatch analysis task).head? =
      some ⟨analysis.primary_agent, dispatch analysis.primary_agent task⟩ ∧
    (delegateToAgents dispatch analysis task).map AgentResp.agent =
      analysis.primary_agent ::
        analysis.additional_agents.filter (fun a => !(a == analysis.primary_agent)) ∧
    (∀ j : Nat, j + 1 < (delegateToAgents dispatch analysis task).length →
      ((delegateToAgents dispatch analysis task).getD (j + 1) ⟨"", ""⟩).response =
        dispatch ((delegateToAgents dispatch analysis task).getD (j + 1) ⟨"", ""⟩).agent
          (createSubtask task
            ((delegateToAgents dispatch analysis task).getD (j + 1) ⟨"", ""⟩).agent
            ((delegateToAgents dispatch analysis task).take (j + 1)))) ∧
    (∀ (t ag : String) (prev : List AgentResp),
      t.data <:+: (createSubtask t ag prev).data ∧
      ∀ r ∈ prev, r.response.data <:+: (createSubtask t ag prev).data) := by
  obtain ⟨ext, h1, h2, h3⟩ := delegLoop_spec dispatch analysis.primary_agent task
    analysis.additional_agents
    [⟨analysis.primary_agent, dispatch analysis.primary_agent task⟩]
  have hres : delegateToAgents dispatch analysis task =
      ⟨analysis.primary_agent, dispatch analysis.primary_agent task⟩ :: ext := by
    rw [delegateToAgents, h1]
    simp
  refine ⟨?_, ?_, ?_, ?_⟩
  · rw [hres]
    rfl
  · rw [hres, List.map_cons, h2]
  · intro j h
    rw [hres] at h ⊢
    have h' : j < ext.length := by simpa using h
    have hj := h3 j h'
    simpa [List.append_assoc] using hj

  · intro t ag prev
    exact ⟨task_infix_createSubtask t ag prev,
      fun r hr => response_infix_createSubtask t ag prev r hr⟩

/-- A concrete dispatcher used by witnesses. -/
def exDispatch : String → String → String := fun a _ => "response of " ++ a

/-- A concrete analysis used by witnesses: primary techsage, additional
agents scout, techsage (a duplicate of the primary) and architect. -/
def exAnalysis : TaskAnalysis :=
  ⟨"techsage", "code task", ["scout", "techsage", "architect"], []⟩

/-- Witness for C8 at a concrete dispatcher and analysis: the duplicate of
the primary is skipped, order is preserved, and the second record is the
dispatch of the sub-task derived from the first. -/
theorem delegation_sequential_with_context_witness :
    (delegateToAgents exDispatch exAnalysis "T").map AgentResp.agent =
      ["techsage", "scout", "architect"] ∧
    ((delegateToAgents exDispatch exAnalysis "T").getD (0 + 1) ⟨"", ""⟩).response =
      exDispatch ((delegateToAgents exDispatch exAnalysis "T").getD (0 + 1) ⟨"", ""⟩).agent
        (createSubtask "T"
          ((delegateToAgents exDispatch exAnalysis "T").getD (0 + 1) ⟨"", ""⟩).agent
          ((delegateToAgents exDispatch exAnalysis "T").take (0 + 1))) := by
  have h := delegation_sequential_with_context exDispatch exAnalysis "T"
  exact ⟨h.2.1.trans (by decide), h.2.2.1 0 (by decide)⟩

/-- The agents package of the repository: one module per file under
src/agents. -/
def agentModules : List String :=
  ["architect", "base", "compass", "scout", "techsage", "tool_smith"]

/-- The modules of the agents package that define an entry-point function
named after the module (agents/base.py defines only classes, so getattr
on it fails). -/
def agentEntryPoints : List String :=
  ["architect", "compass", "scout", "techsage", "tool_smith"]

/-- assign_agent_to_task from tools/agent/assign_agent_to_task.py: the
dynamic import of agents.agent_name is modelled as a lookup in the fixed
module list; a missing module (ImportError) and a module without the
expected function (AttributeError) each return their literal error string;
a resolved agent runs with the task (impls abstracts the agent entry
points, which catch their own errors and return strings). -/
def assignAgentToTask (impls : String → String → String) (agentName task : String) : String :=
  if agentName ∈ agentModules then
    if agentName ∈ agentEntryPoints then
      impls agentName task
    else
      "Error: Agent function \x27" ++ agentName ++ "\x27 not found in module"
  else
    "Error: Agent \x27" ++ agentName ++ "\x27 not found"

/-- Claim C9: for every agent identity string that does not resolve to a
registered agent module, assign_agent_to_task returns the literal
not-found string as its result; being a total function of the identity and
task, it never raises to its caller. -/
theorem unknown_agent_returns_not_found (impls : String → String → String)
    (agentName task : String) (h : agentName ∉ agentModules) :
    assignAgentToTask impls agentName task =
      "Error: Agent \x27" ++ agentName ++ "\x27 not found" := by
  rw [assignAgentToTask, if_neg h]

/-- Witness for C9 at the unregistered identity ghost. -/
theorem unknown_agent_returns_not_found_witness :
    assignAgentToTask (fun _ _ => "") "ghost" "some task" =
      "Error: Agent \x27ghost\x27 not found" :=
  (unknown_agent_returns_not_found (fun _ _ => "") "ghost" "some task" (by decide)).trans
    (by decide)

/-!  agents/compass.py : the orchestrator step and its failure handling  -/

/-- The response_data / error_response dictionaries built by
CompassAgent._process_step (the error field is the key named error in the
source; suggestions is populated only by the exception handler). -/
structure CompassResponseData where
  task : String
  analysis : Option TaskAnalysis
  response : Option String
  agent_responses : List AgentResp
  errorMsg : Option String
  suggestions : List String

/-- External collaborators of the orchestrator step: the classifier call,
the direct-answer call, the delegation dispatcher, and json.dumps. -/
structure CompassOracles where
  analyzeResponse : String → String
  directResponse : String → String
  dispatch : String → String → String
  encode : CompassResponseData → String

/-- CompassAgent._format_responses: the aggregated reply text. -/
def formatResponses (responses : List String) (analysis : TaskAnalysis) : String :=
  "Task Analysis:\nPrimary Agent: " ++ analysis.primary_agent ++
    "\nReason: " ++ analysis.reason ++
    "\n\nAgent Responses:\n" ++ pyJoin "\n" responses ++
    "\n\nSummary:\nI\x27ve coordinated the appropriate agents to address your request. Above are their combined responses.\nLet me know if you need any clarification or have additional questions."

/-- The try block of CompassAgent._process_step.  Its first statement reads
the name messages, which is never assigned anywhere in the method (the
source lacks the messages assignment that BaseAgent._process_step has), so
the read raises NameError before anything else runs; the rest of the block
is the classification, routing and aggregation logic of the source, which
is dead code behind that read. -/
def compassTryBody (o : CompassOracles) (state : LoopState) : Except String LoopState := do
  let iterations := state.iterations
  let messages ← lookupName (none : Option (List Msg)) "messages"
  match messages.getLast? with
  | none => pure state
  | some lastMessage =>
    let task := lastMessage.content
    let analysis := analyzeTask (o.analyzeResponse task)
    if analysis.primary_agent = "direct" then
      let response := o.directResponse task
      let rd : CompassResponseData :=
        ⟨task, some analysis, some response, [⟨"compass", response⟩], none, []⟩
      pure { messages := messages ++ [Msg.ai (o.encode rd)],
             iterations := iterations + 1, finalAnswer := state.finalAnswer }
    else
      let ars := delegateToAgents o.dispatch analysis task
      let response := formatResponses (ars.map AgentResp.response) analysis
      let rd : CompassResponseData := ⟨task, some analysis, some response, ars, none, []⟩
      pure { messages := messages ++ [Msg.ai (o.encode rd)],
             iterations := iterations + 1, finalAnswer := state.finalAnswer }

/-- CompassAgent._process_step: the try block above plus its except
handler.  The handler builds the structured error payload, but its task
field reads the name last_message — a local that is unbound whenever the
try block failed at its first statement, which is every call — so the
handler itself raises and the exception escapes the method (the later read
of messages in the returned dict is likewise unbound). -/
def compassProcessStep (o : CompassOracles) (state : LoopState) : Except String LoopState :=
  match compassTryBody o state with
  | .ok r => .ok r
  | .error e => do
    let errorMsg := "Error in processing: " ++ e
    let lastMessage ← lookupName (none : Option (Option Msg)) "last_message"
    let taskStr :=
      match lastMessage with
      | some lm => lm.content
      | none => "No task"
    let rd : CompassResponseData := ⟨taskStr, none, none, [], some errorMsg,
      ["Try rephrasing your request",
       "Break down the task into smaller steps",
       "Check the task requirements"]⟩
    let messages ← lookupName (none : Option (List Msg)) "messages"
    pure { messages := messages ++ [Msg.system (o.encode rd)],
           iterations := state.iterations + 1, finalAnswer := state.finalAnswer }

/-- Claim C3 (code bug): for every incoming state and every behaviour of
the classifier, dispatcher and encoder, CompassAgent._process_step raises:
the try block fails at its unbound read of messages, and the except
handler — the code meant to convert the failure into the structured error
payload with task, error and remediation suggestions — fails at its own
unbound read of last_message, so the structured payload is never produced
and the failure escapes the orchestrator step (BaseAgent.process then
catches it and returns a plain error string instead of the payload). -/
theorem compass_step_always_raises (o : CompassOracles) (state : LoopState) :
    compassProcessStep o state = Except.error "name last_message is not defined" := by
  rfl

/-!  agents/techsage.py : the development step and its file side effects  -/

/-- The subset of the _analyze_task result dictionary that the response
construction reads (the method catches its own errors and always returns
a dictionary). -/
structure TechAnalysis where
  task_type : String
  language : String
  technologies : List String
deriving DecidableEq

/-- A tool invocation with a file-system side effect: one write_to_file
call or one delete_file call, in program order. -/
inductive FileEffect where
  | write (filename : String) (content : String)
  | del (filename : String)
deriving DecidableEq

/-- External collaborators of the TechSage step: task analysis, the
inference call, code-block extraction (the regex of _extract_code_blocks),
whether a given write_to_file invocation returns rather than raises, and
the timestamp. -/
structure TechSageOracles where
  analyze : String → TechAnalysis
  llm : String → String
  extract : String → List (String × String)
  writeOk : String → String → Bool
  now : String

/-- The response_data dictionary of TechSageAgent._process_step, reduced to
the fields the claims mention (the error branch uses the error and
suggestions fields; the success branch leaves them empty). -/
structure TechSageResponse where
  status : String
  query : String
  timestamp : String
  files : List (String × String)
  files_created : List String
  errorMsg : Option String
  suggestions : List String
deriving DecidableEq

/-- The write loop of TechSageAgent._process_step: invoke write_to_file for
every extracted code block in order, collecting into files_created the
names whose invocation returned; each invocation is logged as a write
effect whether or not it raised. -/
def writeFiles (writeOk : String → String → Bool) :
    List (String × String) → List String × List FileEffect
  | [] => ([], [])
  | (fn, content) :: rest =>
    let (created, effs) := writeFiles writeOk rest
    if writeOk fn content then (fn :: created, FileEffect.write fn content :: effs)
    else (created, FileEffect.write fn content :: effs)

/-- Lines 166 to 218 of agents/techsage.py, the part of the try block after
the inference call: extract code blocks, write them, build the success
response listing files_created, then invoke delete_file for every entry of
files_created before returning.  Returns the response together with the
ordered effect log (all writes, then one delete per created file). -/
def techsageSuccessRest (o : TechSageOracles) (task implContent : String) :
    TechSageResponse × List FileEffect :=
  let blocks := o.extract implContent
  let (filesCreated, writeEffs) := writeFiles o.writeOk blocks
  let resp : TechSageResponse := ⟨"success", task, o.now, blocks, filesCreated, none, []⟩
  (resp, writeEffs ++ filesCreated.map FileEffect.del)

/-- The result of one TechSage step: the state update, the response it
encodes, and the file-system effect log of the step. -/
structure TechSageOutcome where
  newState : LoopState
  response : TechSageResponse
  effects : List FileEffect

/-- TechSageAgent._process_step.  The try block computes the task and the
analysis, then evaluates self.llm.invoke(implementation_prompt); the name
implementation_prompt is never assigned in techsage.py (the helper
_get_implementation_prompt is defined but never called), so the call
raises NameError before any file is written and the except handler returns
the error response with iterations set to 1. -/
def techsageStep (o : TechSageOracles) (encode : TechSageResponse → String)
    (state : LoopState) : TechSageOutcome :=
  let messages := state.messages
  let task :=
    match messages.getLast? with
    | some m => m.content
    | none => "No task provided"
  let body : Except String (LoopState × TechSageResponse × List FileEffect) := do
    let _analysis := o.analyze task
    let implementationPrompt ← lookupName (none : Option String) "implementation_prompt"
    let implContent := o.llm implementationPrompt
    let (resp, effs) := techsageSuccessRest o task implContent
    pure ({ messages := messages ++ [Msg.ai (encode resp)],
            iterations := 1, finalAnswer := state.finalAnswer }, resp, effs)
  match body with
  | .ok (st, resp, effs) => ⟨st, resp, effs⟩
  | .error e =>
    let resp : TechSageResponse := ⟨"error", task, o.now, [], [], some e,
      ["Provide more specific and granular requirements",
       "Clearly specify the programming language and framework",
       "Break down complex requirements into smaller, manageable tasks",
       "Verify the input task description"]⟩
    ⟨{ messages := messages ++ [Msg.ai (encode resp)],
       iterations := 1, finalAnswer := state.finalAnswer }, resp, []⟩

/-- Claim C10 (code bug): the delete-before-return behaviour the claim
describes lives in the success branch, whose effect log is exactly the
writes followed by one delete_file invocation per files_created entry
while the response still lists those names under files_created — but that
branch is unreachable: every TechSage step takes the error branch (status
error, empty effect log), because the inference call reads the unbound
name implementation_prompt, so no successful step exists and no file is
ever written or deleted. -/
theorem techsage_success_unreachable_deletes_files :
    (∀ (o : TechSageOracles) (encode : TechSageResponse → String) (state : LoopState),
      (techsageStep o encode state).response.status = "error" ∧
      (techsageStep o encode state).effects = []) ∧
    (∀ (o : TechSageOracles) (task implContent : String),
      (techsageSuccessRest o task implContent).1.status = "success" ∧
      (techsageSuccessRest o task implContent).2 =
        (writeFiles o.writeOk (o.extract implContent)).2 ++
          ((techsageSuccessRest o task implContent).1.files_created).map FileEffect.del) := by
  constructor
  · intro o encode state
    exact ⟨rfl, rfl⟩
  · intro o task implContent
    exact ⟨rfl, rfl⟩
